import Mathlib

/-!
Shallow embedding of `src/lib/workers/global/CustomDashboardWriter.ts`.

The module keeps a module-level cache of issue summaries and talks to an
HTTP collaborator.  We model the collaborator as an explicit environment
(`HttpEnv`) giving the outcome of every request it can receive, and each
operation as a pure function from the environment and the current cache to
a triple: its result, the ordered trace of observable events (log lines and
HTTP requests issued), and the new cache.  Code that may throw (awaited
HTTP calls outside any try/catch) returns `Except HttpErr`; the exported
operations that wrap their body in try/catch return `Option` results, and
the relation between the un-caught body and the wrapper is proved below.
-/

set_option autoImplicit false

namespace CustomDashboardWriter

/-- The projection `{ iid, title }` the TS code stores in `issueListCache`
(type `SelfHostIssue` in the source). -/
structure SelfHostIssue where
  iid : Int
  title : String
deriving DecidableEq, Repr

/-- Body of the list-issues response: either a JSON array of issues or
something that is not an array (`!is.array(res.body)` in the source). -/
inductive ListBody where
  | arr (issues : List SelfHostIssue)
  | nonArray
deriving DecidableEq, Repr

/-- A thrown transport error; the source only inspects `err.message`. -/
structure HttpErr where
  message : String
deriving DecidableEq, Repr

/-- The two payload shapes the source sends with `putJson`. -/
inductive PutBody where
  | titleDesc (title description : String)
  | stateEvent (event : String)
deriving DecidableEq, Repr

/-- An HTTP request as issued by the module.  `getJson` records the
`useCache` option when the call site passes one (`none` when the call site
passes only `baseUrl`). -/
inductive Request where
  | getJson (path : String) (useCache : Option Bool)
  | postJson (path : String) (title description : String)
  | putJson (path : String) (body : PutBody)
deriving DecidableEq, Repr

/-- Observable events, in program order: logger calls and HTTP requests. -/
inductive Event where
  | logDebug (msg : String)
  | logInfo (msg : String)
  | logWarn (msg : String)
  | request (r : Request)
deriving DecidableEq, Repr

/-- Behaviour of the HTTP collaborator: the outcome of each request kind.
`listIssues` answers `GET {repo}/issues`; `getDesc i` answers a single-issue
`GET` and yields `body.description`; `putRes i b` and `postRes t d` are the
outcomes of `putJson`/`postJson`. -/
structure HttpEnv where
  listIssues : Except HttpErr ListBody
  getDesc : Int → Except HttpErr String
  putRes : Int → PutBody → Except HttpErr Unit
  postRes : String → String → Except HttpErr Unit

/-- Argument record of `ensureIssue` (fields used by the source). -/
structure EnsureIssueConfig where
  title : String
  reuseTitle : Option String
  body : String

/-- Return value of a successful `ensureIssue` mutation. -/
inductive EnsureIssueResult where
  | created
  | updated
deriving DecidableEq, Repr

/-- The `Issue` record returned by `getIssue` / `findIssue`. -/
structure Issue where
  number : Int
  body : String
deriving DecidableEq, Repr

/-- The module-level `issueListCache`. -/
abbrev Cache := List SelfHostIssue

/-- `res.body.map((i) => ({ iid: i.iid, title: i.title }))` element-wise. -/
def projectIssue (i : SelfHostIssue) : SelfHostIssue :=
  { iid := i.iid, title := i.title }

/-- `getIssueList`: fetches `{repo}/issues`.  On a non-array body it logs a
warning and returns `[]` without touching the cache; on an array body it
projects each element, stores the result as the new cache and returns it.
A thrown fetch error propagates (no try/catch in the source). -/
def getIssueList (env : HttpEnv) (repository : String) (cache : Cache) :
    Except HttpErr (List SelfHostIssue) × List Event × Cache :=
  let req := Event.request (.getJson s!"{repository}/issues" none)
  match env.listIssues with
  | .error e => (.error e, [req], cache)
  | .ok .nonArray => (.ok [], [req, .logWarn "Could not retrieve issue list"], cache)
  | .ok (.arr issues) =>
      let newCache := issues.map projectIssue
      (.ok newCache, [req], newCache)

/-- The issue-resolution step of `ensureIssue`: first an exact match on
`title`, then a fallback exact match on `reuseTitle`. -/
def findExisting (issueList : List SelfHostIssue) (title : String)
    (reuseTitle : Option String) : Option SelfHostIssue :=
  match issueList.find? (fun i => i.title == title) with
  | some i => some i
  | none => issueList.find? (fun i => some i.title == reuseTitle)

/-- The body of the `try` block of `ensureIssue` (after `description` has
been computed): list refresh, lookup, then update-or-create.  Errors from
any awaited call propagate to the wrapper. -/
def ensureIssueInner (env : HttpEnv) (repository : String) (title : String)
    (reuseTitle : Option String) (description : String) (cache : Cache) :
    Except HttpErr (Option EnsureIssueResult) × List Event × Cache :=
  match getIssueList env repository cache with
  | (.error e, tr, c) => (.error e, tr, c)
  | (.ok issueList, tr, c) =>
      match findExisting issueList title reuseTitle with
      | some issue =>
          let reqGet := Event.request (.getJson s!"/{repository}/issues/{issue.iid}" none)
          match env.getDesc issue.iid with
          | .error e => (.error e, tr ++ [reqGet], c)
          | .ok existingDescription =>
              if issue.title ≠ title ∨ existingDescription ≠ description then
                let put := Request.putJson s!"{repository}/issues/{issue.iid}"
                  (.titleDesc title description)
                match env.putRes issue.iid (.titleDesc title description) with
                | .error e =>
                    (.error e, tr ++ [reqGet, .logDebug "Updating issue", .request put], c)
                | .ok _ =>
                    (.ok (some .updated),
                      tr ++ [reqGet, .logDebug "Updating issue", .request put], c)
              else
                (.ok none, tr ++ [reqGet], c)
      | none =>
          let post := Request.postJson s!"/{repository}/issues" title description
          match env.postRes title description with
          | .error e => (.error e, tr ++ [.request post], c)
          | .ok _ =>
              (.ok (some .created), tr ++ [.request post, .logInfo "Issue created"], c)

/-- The log line emitted by the catch block of `ensureIssue`: debug when
the message starts with the issues-disabled marker, warning otherwise. -/
def ensureCatchLog (e : HttpErr) : Event :=
  let m := e.message
  if m.startsWith "Issues are disabled for this repo" then
    .logDebug s!"Could not create issue: {m}"
  else
    .logWarn "Could not ensure issue"

/-- `ensureIssue`: logs, sanitizes the body, runs the try block, and
converts any thrown error into a `null` return plus the catch log line. -/
def ensureIssue (env : HttpEnv) (sanitize : String → String) (repository : String)
    (cfg : EnsureIssueConfig) (cache : Cache) :
    Option EnsureIssueResult × List Event × Cache :=
  let ev0 := Event.logDebug "ensureIssue()"
  let description := sanitize cfg.body
  match ensureIssueInner env repository cfg.title cfg.reuseTitle description cache with
  | (.ok r, tr, c) => (r, ev0 :: tr, c)
  | (.error e, tr, c) => (none, ev0 :: (tr ++ [ensureCatchLog e]), c)

/-- The `for` loop of `ensureIssueClosing`: one close `putJson` per issue
whose title matches; an error from a close request aborts the loop. -/
def closeLoop (env : HttpEnv) (repository : String) (title : String) :
    List SelfHostIssue → Except HttpErr Unit × List Event
  | [] => (.ok (), [])
  | issue :: rest =>
      if issue.title == title then
        let put := Request.putJson s!"{repository}/issues/{issue.iid}" (.stateEvent "close")
        let evs := [Event.logDebug "Closing issue", Event.request put]
        match env.putRes issue.iid (.stateEvent "close") with
        | .error e => (.error e, evs)
        | .ok _ =>
            ((closeLoop env repository title rest).1,
              evs ++ (closeLoop env repository title rest).2)
      else
        closeLoop env repository title rest

/-- `ensureIssueClosing`: refreshes the list then closes every exact title
match.  No try/catch: any thrown error propagates in the result. -/
def ensureIssueClosing (env : HttpEnv) (repository : String) (title : String)
    (cache : Cache) : Except HttpErr Unit × List Event × Cache :=
  let ev0 := Event.logDebug "ensureIssueClosing()"
  match getIssueList env repository cache with
  | (.error e, tr, c) => (.error e, ev0 :: tr, c)
  | (.ok issueList, tr, c) =>
      ((closeLoop env repository title issueList).1,
        ev0 :: (tr ++ (closeLoop env repository title issueList).2), c)

/-- Body of the `try` block of `getIssue`: a single `getJson` with the
`useCache` option, yielding `{ number, body: description }`. -/
def getIssueInner (env : HttpEnv) (repository : String) (number : Int)
    (useCache : Bool) : Except HttpErr Issue × List Event :=
  let req := Event.request (.getJson s!"{repository}/issues/{number}" (some useCache))
  match env.getDesc number with
  | .error e => (.error e, [req])
  | .ok d => (.ok { number := number, body := d }, [req])

/-- `getIssue(number, useCache)`: the try/catch wrapper converting a thrown
error into `null` plus a warning log.  The TS parameter default
`useCache = true` is applied at call sites that omit the argument. -/
def getIssue (env : HttpEnv) (repository : String) (number : Int)
    (useCache : Bool) : Option Issue × List Event :=
  match getIssueInner env repository number useCache with
  | (.ok issue, tr) => (some issue, tr)
  | (.error _, tr) => (none, tr ++ [.logWarn "Error getting issue"])

/-- Body of the `try` block of `findIssue`: list refresh, first exact title
match, then delegation to `getIssue` with its default `useCache = true`.
`getIssue` itself never throws, so only the list fetch can raise here. -/
def findIssueInner (env : HttpEnv) (repository : String) (title : String)
    (cache : Cache) : Except HttpErr (Option Issue) × List Event × Cache :=
  match getIssueList env repository cache with
  | (.error e, tr, c) => (.error e, tr, c)
  | (.ok issueList, tr, c) =>
      match issueList.find? (fun i => i.title == title) with
      | none => (.ok none, tr, c)
      | some issue =>
          (.ok (getIssue env repository issue.iid true).1,
            tr ++ (getIssue env repository issue.iid true).2, c)

/-- `findIssue(title)`: debug log, try block, and catch converting a thrown
error into `null` plus a warning log. -/
def findIssue (env : HttpEnv) (repository : String) (title : String)
    (cache : Cache) : Option Issue × List Event × Cache :=
  let ev0 := Event.logDebug s!"findIssue({title})"
  match findIssueInner env repository title cache with
  | (.ok r, tr, c) => (r, ev0 :: tr, c)
  | (.error _, tr, c) => (none, ev0 :: (tr ++ [.logWarn "Error finding issue"]), c)

/-- An event is a network mutation (a `putJson` or `postJson` request). -/
def isMutation : Event → Bool
  | .request (.postJson _ _ _) => true
  | .request (.putJson _ _) => true
  | _ => false

/-- An event is a create request (`postJson`). -/
def isPostReq : Event → Bool
  | .request (.postJson _ _ _) => true
  | _ => false

/-- An event is a log line. -/
def isLog : Event → Bool
  | .request _ => false
  | _ => true

/-- The mutation requests of a trace, in order. -/
def mutationEvents (tr : List Event) : List Event :=
  tr.filter isMutation

/-- The close requests `ensureIssueClosing` should issue for a given list
and title: one per exact match, in list order. -/
def closeRequests (repository : String) (issues : List SelfHostIssue)
    (title : String) : List Event :=
  (issues.filter (fun i => i.title == title)).map
    (fun i => Event.request (.putJson s!"{repository}/issues/{i.iid}" (.stateEvent "close")))

/-! ### Helper lemmas (shared) -/

theorem ensureIssue_ok {env : HttpEnv} {sanitize : String → String} {repository : String}
    {cfg : EnsureIssueConfig} {cache : Cache} {r : Option EnsureIssueResult}
    {tr : List Event} {c : Cache}
    (h : ensureIssueInner env repository cfg.title cfg.reuseTitle (sanitize cfg.body) cache =
      (.ok r, tr, c)) :
    ensureIssue env sanitize repository cfg cache = (r, Event.logDebug "ensureIssue()" :: tr, c) := by
  simp only [ensureIssue, h]

theorem ensureIssue_err {env : HttpEnv} {sanitize : String → String} {repository : String}
    {cfg : EnsureIssueConfig} {cache : Cache} {e : HttpErr} {tr : List Event} {c : Cache}
    (h : ensureIssueInner env repository cfg.title cfg.reuseTitle (sanitize cfg.body) cache =
      (.error e, tr, c)) :
    ensureIssue env sanitize repository cfg cache =
      (none, Event.logDebug "ensureIssue()" :: (tr ++ [ensureCatchLog e]), c) := by
  simp only [ensureIssue, h]

theorem isLog_ensureCatchLog (e : HttpErr) : isLog (ensureCatchLog e) = true := by
  simp only [ensureCatchLog]
  split <;> rfl

@[simp] theorem isPostReq_getJson (p : String) (u : Option Bool) :
    isPostReq (.request (.getJson p u)) = false := rfl

@[simp] theorem isPostReq_postJson (p t d : String) :
    isPostReq (.request (.postJson p t d)) = true := rfl

@[simp] theorem isPostReq_putJson (p : String) (b : PutBody) :
    isPostReq (.request (.putJson p b)) = false := rfl

@[simp] theorem isPostReq_logDebug (m : String) : isPostReq (.logDebug m) = false := rfl

@[simp] theorem isPostReq_logInfo (m : String) : isPostReq (.logInfo m) = false := rfl

@[simp] theorem isPostReq_logWarn (m : String) : isPostReq (.logWarn m) = false := rfl

@[simp] theorem isMutation_getJson (p : String) (u : Option Bool) :
    isMutation (.request (.getJson p u)) = false := rfl

@[simp] theorem isMutation_postJson (p t d : String) :
    isMutation (.request (.postJson p t d)) = true := rfl

@[simp] theorem isMutation_putJson (p : String) (b : PutBody) :
    isMutation (.request (.putJson p b)) = true := rfl

@[simp] theorem isMutation_logDebug (m : String) : isMutation (.logDebug m) = false := rfl

@[simp] theorem isMutation_logInfo (m : String) : isMutation (.logInfo m) = false := rfl

@[simp] theorem isMutation_logWarn (m : String) : isMutation (.logWarn m) = false := rfl

/-! ### C1 -/

/-- C1: the claim states that on a non-array list response `getIssueList`
also overwrites the cache with the empty sequence.  Counterexample: with a
non-array response and prior cache `[⟨1, "A"⟩]`, the cache after the call
is not the empty sequence. -/
theorem C1_counterexample :
    (getIssueList ⟨.ok .nonArray, fun _ => .ok "", fun _ _ => .ok (), fun _ _ => .ok ()⟩
      "repo" [⟨1, "A"⟩]).2.2 ≠ ([] : Cache) := by
  simp [getIssueList]

/-- C1 (amended): on a non-array list response, `getIssueList` logs a
warning and returns the empty sequence, and leaves the cache unchanged
(its prior contents are retained, not overwritten). -/
theorem C1_nonArray_amended (env : HttpEnv) (repository : String) (cache : Cache)
    (h : env.listIssues = .ok .nonArray) :
    getIssueList env repository cache =
      (.ok [],
        [.request (.getJson s!"{repository}/issues" none),
         .logWarn "Could not retrieve issue list"],
        cache) := by
  simp only [getIssueList, h]

theorem C1_nonArray_amended_witness :
    getIssueList ⟨.ok .nonArray, fun _ => .ok "", fun _ _ => .ok (), fun _ _ => .ok ()⟩
        "repo" [⟨1, "A"⟩] =
      (.ok [],
        [.request (.getJson "repo/issues" none),
         .logWarn "Could not retrieve issue list"],
        [⟨1, "A"⟩]) :=
  C1_nonArray_amended _ "repo" [⟨1, "A"⟩] rfl

/-! ### C2 -/

/-- C2: when the freshly fetched list has no issue titled `title` and none
titled `reuseTitle`, `ensureIssue` issues exactly one mutation — a
`postJson` create carrying the given title and the sanitized body — and
returns `created`. -/
theorem C2_creates_when_absent (env : HttpEnv) (sanitize : String → String)
    (repository : String) (title : String) (reuseTitle : Option String) (body : String)
    (cache : Cache) (issues : List SelfHostIssue)
    (hlist : env.listIssues = .ok (.arr issues))
    (hT : ∀ i ∈ issues.map projectIssue, ¬ i.title = title)
    (hR : ∀ i ∈ issues.map projectIssue, ¬ some i.title = reuseTitle)
    (hpost : env.postRes title (sanitize body) = .ok ()) :
    (ensureIssue env sanitize repository ⟨title, reuseTitle, body⟩ cache).1 = some .created ∧
    mutationEvents (ensureIssue env sanitize repository ⟨title, reuseTitle, body⟩ cache).2.1 =
      [.request (.postJson s!"/{repository}/issues" title (sanitize body))] := by
  have hf1 : (issues.map projectIssue).find? (fun i => i.title == title) = none := by
    rw [List.find?_eq_none]
    intro x hx
    simpa using hT x hx
  have hf2 : (issues.map projectIssue).find? (fun i => some i.title == reuseTitle) = none := by
    rw [List.find?_eq_none]
    intro x hx
    simpa using hR x hx
  have hinner : ensureIssueInner env repository title reuseTitle (sanitize body) cache =
      (.ok (some .created),
        [Event.request (.getJson s!"{repository}/issues" none),
         Event.request (.postJson s!"/{repository}/issues" title (sanitize body)),
         Event.logInfo "Issue created"],
        issues.map projectIssue) := by
    simp [ensureIssueInner, getIssueList, hlist, findExisting, hf1, hf2, hpost]
  rw [ensureIssue_ok hinner]
  simp [mutationEvents, isMutation]

theorem C2_creates_when_absent_witness :
    (ensureIssue ⟨.ok (.arr [⟨1, "Other"⟩]), fun _ => .ok "", fun _ _ => .ok (),
        fun _ _ => .ok ()⟩ (fun s => s) "repo" ⟨"Dashboard", none, "B"⟩ []).1 = some .created ∧
    mutationEvents ((ensureIssue ⟨.ok (.arr [⟨1, "Other"⟩]), fun _ => .ok "",
        fun _ _ => .ok (), fun _ _ => .ok ()⟩ (fun s => s) "repo"
        ⟨"Dashboard", none, "B"⟩ []).2.1) =
      [.request (.postJson "/repo/issues" "Dashboard" "B")] :=
  C2_creates_when_absent _ _ "repo" "Dashboard" none "B" [] [⟨1, "Other"⟩]
    rfl (by decide) (by decide) rfl

theorem isPostReq_ensureCatchLog (e : HttpErr) : isPostReq (ensureCatchLog e) = false := by
  simp only [ensureCatchLog]
  split <;> rfl

theorem isMutation_ensureCatchLog (e : HttpErr) : isMutation (ensureCatchLog e) = false := by
  simp only [ensureCatchLog]
  split <;> rfl

/-! ### C3 -/

/-- C3: when the first exact title match in the freshly fetched list has a
stored description equal to the sanitized requested body, `ensureIssue`
performs no network mutation (no `putJson`, no `postJson`) and returns
`null`.  In particular, after a create with title `T` and body `B` the
tracker lists that issue with description `sanitize B`, and this theorem
applied to the second call shows it mutates nothing: `ensureIssue` is
idempotent under unchanged input. -/
theorem C3_no_mutation_when_unchanged (env : HttpEnv) (sanitize : String → String)
    (repository : String) (title : String) (reuseTitle : Option String) (body : String)
    (cache : Cache) (issues : List SelfHostIssue) (issue : SelfHostIssue)
    (hlist : env.listIssues = .ok (.arr issues))
    (hfind : (issues.map projectIssue).find? (fun i => i.title == title) = some issue)
    (hdesc : env.getDesc issue.iid = .ok (sanitize body)) :
    (ensureIssue env sanitize repository ⟨title, reuseTitle, body⟩ cache).1 = none ∧
    mutationEvents (ensureIssue env sanitize repository ⟨title, reuseTitle, body⟩ cache).2.1 =
      [] := by
  have htitle : issue.title = title := by
    simpa using List.find?_some hfind
  have hinner : ensureIssueInner env repository title reuseTitle (sanitize body) cache =
      (.ok none,
        [Event.request (.getJson s!"{repository}/issues" none),
         Event.request (.getJson s!"/{repository}/issues/{issue.iid}" none)],
        issues.map projectIssue) := by
    simp [ensureIssueInner, getIssueList, hlist, findExisting, hfind, hdesc, htitle]
  rw [ensureIssue_ok hinner]
  simp [mutationEvents, isMutation]

theorem C3_no_mutation_when_unchanged_witness :
    (ensureIssue ⟨.ok (.arr [⟨1, "Dashboard"⟩]), fun _ => .ok "B", fun _ _ => .ok (),
        fun _ _ => .ok ()⟩ (fun s => s) "repo" ⟨"Dashboard", none, "B"⟩ []).1 = none ∧
    mutationEvents ((ensureIssue ⟨.ok (.arr [⟨1, "Dashboard"⟩]), fun _ => .ok "B",
        fun _ _ => .ok (), fun _ _ => .ok ()⟩ (fun s => s) "repo"
        ⟨"Dashboard", none, "B"⟩ []).2.1) = [] :=
  C3_no_mutation_when_unchanged _ _ "repo" "Dashboard" none "B" [] [⟨1, "Dashboard"⟩]
    ⟨1, "Dashboard"⟩ rfl rfl rfl

/-! ### C4 -/

/-- C4: when an existing issue is found (by title or by the reuse title)
and either its title differs from the requested title or its fetched
stored description differs from the sanitized requested body,
`ensureIssue` issues exactly one mutation — a `putJson` update carrying the
requested title and the sanitized body — and returns `updated`. -/
theorem C4_updates_when_different (env : HttpEnv) (sanitize : String → String)
    (repository : String) (title : String) (reuseTitle : Option String) (body : String)
    (cache : Cache) (issues : List SelfHostIssue) (issue : SelfHostIssue) (d : String)
    (hlist : env.listIssues = .ok (.arr issues))
    (hfind : findExisting (issues.map projectIssue) title reuseTitle = some issue)
    (hdesc : env.getDesc issue.iid = .ok d)
    (hdiff : ¬ issue.title = title ∨ ¬ d = sanitize body)
    (hput : env.putRes issue.iid (.titleDesc title (sanitize body)) = .ok ()) :
    (ensureIssue env sanitize repository ⟨title, reuseTitle, body⟩ cache).1 = some .updated ∧
    mutationEvents (ensureIssue env sanitize repository ⟨title, reuseTitle, body⟩ cache).2.1 =
      [.request (.putJson s!"{repository}/issues/{issue.iid}"
        (.titleDesc title (sanitize body)))] := by
  have hinner : ensureIssueInner env repository title reuseTitle (sanitize body) cache =
      (.ok (some .updated),
        [Event.request (.getJson s!"{repository}/issues" none),
         Event.request (.getJson s!"/{repository}/issues/{issue.iid}" none),
         Event.logDebug "Updating issue",
         Event.request (.putJson s!"{repository}/issues/{issue.iid}"
           (.titleDesc title (sanitize body)))],
        issues.map projectIssue) := by
    rcases hdiff with h | h <;>
      simp [ensureIssueInner, getIssueList, hlist, hfind, hdesc, hput, h]
  rw [ensureIssue_ok hinner]
  simp [mutationEvents, isMutation]

theorem C4_updates_when_different_witness :
    (ensureIssue ⟨.ok (.arr [⟨1, "Dashboard"⟩]), fun _ => .ok "old", fun _ _ => .ok (),
        fun _ _ => .ok ()⟩ (fun s => s) "repo" ⟨"Dashboard", none, "B"⟩ []).1 =
      some .updated ∧
    mutationEvents ((ensureIssue ⟨.ok (.arr [⟨1, "Dashboard"⟩]), fun _ => .ok "old",
        fun _ _ => .ok (), fun _ _ => .ok ()⟩ (fun s => s) "repo"
        ⟨"Dashboard", none, "B"⟩ []).2.1) =
      [.request (.putJson "repo/issues/1" (.titleDesc "Dashboard" "B"))] :=
  C4_updates_when_different _ _ "repo" "Dashboard" none "B" [] [⟨1, "Dashboard"⟩]
    ⟨1, "Dashboard"⟩ "old" rfl rfl rfl (Or.inr (by decide)) rfl

/-! ### C5 -/

/-- C5: when the freshly fetched list has no exact `title` match but has a
`reuseTitle` match, `ensureIssue` takes the found-issue branch: it never
issues a create (`postJson`) request — whatever the outcome of the
description fetch and of the update — and it does fetch the existing
issue body.  Moreover the exact-title match, when present, always takes
priority in the lookup over the `reuseTitle` fallback. -/
theorem C5_reuse_title_no_create (env : HttpEnv) (sanitize : String → String)
    (repository : String) (title : String) (reuseTitle : Option String) (body : String)
    (cache : Cache) (issues : List SelfHostIssue) (issue : SelfHostIssue)
    (hlist : env.listIssues = .ok (.arr issues))
    (hT : (issues.map projectIssue).find? (fun i => i.title == title) = none)
    (hR : (issues.map projectIssue).find? (fun i => some i.title == reuseTitle) =
      some issue) :
    ((ensureIssue env sanitize repository ⟨title, reuseTitle, body⟩ cache).2.1.filter
      isPostReq = [] ∧
     Event.request (.getJson s!"/{repository}/issues/{issue.iid}" none) ∈
      (ensureIssue env sanitize repository ⟨title, reuseTitle, body⟩ cache).2.1) ∧
    (∀ (l : List SelfHostIssue) (t : String) (r : Option String) (i : SelfHostIssue),
      l.find? (fun j => j.title == t) = some i → findExisting l t r = some i) := by
  have hfe : findExisting (issues.map projectIssue) title reuseTitle = some issue := by
    simp [findExisting, hT, hR]
  refine ⟨?_, ?_⟩
  · rcases hd : env.getDesc issue.iid with e | d
    · simp [ensureIssue, ensureIssueInner, getIssueList, hlist, hfe, hd,
        isPostReq_ensureCatchLog]
    · by_cases h1 : issue.title = title
      · by_cases h2 : d = sanitize body
        · simp [ensureIssue, ensureIssueInner, getIssueList, hlist, hfe, hd, h1, h2]
        · rcases hp : env.putRes issue.iid (.titleDesc title (sanitize body)) with e2 | u
          · simp [ensureIssue, ensureIssueInner, getIssueList, hlist, hfe, hd, h1, h2,
              hp, isPostReq_ensureCatchLog]
          · simp [ensureIssue, ensureIssueInner, getIssueList, hlist, hfe, hd, h1, h2,
              hp]
      · rcases hp : env.putRes issue.iid (.titleDesc title (sanitize body)) with e2 | u
        · simp [ensureIssue, ensureIssueInner, getIssueList, hlist, hfe, hd, h1, hp,
            isPostReq_ensureCatchLog]
        · simp [ensureIssue, ensureIssueInner, getIssueList, hlist, hfe, hd, h1, hp]
  · intro l t r i h
    simp [findExisting, h]

theorem C5_reuse_title_no_create_witness :
    ((ensureIssue ⟨.ok (.arr [⟨2, "Old Title"⟩]), fun _ => .ok "x", fun _ _ => .ok (),
        fun _ _ => .ok ()⟩ (fun s => s) "repo"
        ⟨"New Title", some "Old Title", "B"⟩ []).2.1.filter isPostReq = [] ∧
     Event.request (.getJson "/repo/issues/2" none) ∈
      (ensureIssue ⟨.ok (.arr [⟨2, "Old Title"⟩]), fun _ => .ok "x", fun _ _ => .ok (),
        fun _ _ => .ok ()⟩ (fun s => s) "repo"
        ⟨"New Title", some "Old Title", "B"⟩ []).2.1) ∧
    findExisting [⟨2, "Old Title"⟩] "Old Title" none = some ⟨2, "Old Title"⟩ := by
  have h := C5_reuse_title_no_create
    ⟨.ok (.arr [⟨2, "Old Title"⟩]), fun _ => .ok "x", fun _ _ => .ok (), fun _ _ => .ok ()⟩
    (fun s => s) "repo" "New Title" (some "Old Title") "B" [] [⟨2, "Old Title"⟩]
    ⟨2, "Old Title"⟩ rfl (by decide) (by decide)
  exact ⟨h.1, h.2 [⟨2, "Old Title"⟩] "Old Title" none ⟨2, "Old Title"⟩ (by decide)⟩

/-! ### C6 -/

theorem closeLoop_ok_spec (env : HttpEnv) (repository title : String)
    (l : List SelfHostIssue)
    (hok : ∀ i ∈ l, i.title = title → env.putRes i.iid (.stateEvent "close") = .ok ()) :
    (closeLoop env repository title l).1 = .ok () ∧
    mutationEvents (closeLoop env repository title l).2 =
      closeRequests repository l title := by
  induction l with
  | nil => simp [closeLoop, mutationEvents, closeRequests]
  | cons i rest ih =>
      have ihr := ih (fun j hj ht => hok j (List.mem_cons_of_mem i hj) ht)
      by_cases hi : i.title = title
      · have hput := hok i (List.mem_cons_self i rest) hi
        refine ⟨?_, ?_⟩
        · simp [closeLoop, hi, hput, ihr.1]
        · simp [closeLoop, hi, hput, mutationEvents, closeRequests]
          simpa [mutationEvents, closeRequests] using ihr.2
      · refine ⟨?_, ?_⟩
        · simp [closeLoop, hi, ihr.1]
        · simpa [closeLoop, hi, mutationEvents, closeRequests] using ihr.2

/-- C6: `ensureIssueClosing` issues exactly one close request — a
`putJson` with `state_event = close` addressed to the issue's iid — per
issue in the freshly fetched list whose title equals the given title, in
list order, and no mutation request for any other issue. -/
theorem C6_closes_every_match (env : HttpEnv) (repository title : String) (cache : Cache)
    (issues : List SelfHostIssue)
    (hlist : env.listIssues = .ok (.arr issues))
    (hok : ∀ i ∈ issues.map projectIssue, i.title = title →
      env.putRes i.iid (.stateEvent "close") = .ok ()) :
    mutationEvents (ensureIssueClosing env repository title cache).2.1 =
      closeRequests repository (issues.map projectIssue) title := by
  have hcl := closeLoop_ok_spec env repository title (issues.map projectIssue) hok
  simp [ensureIssueClosing, getIssueList, hlist, mutationEvents, List.filter_append,
    isMutation] at hcl ⊢
  simpa [mutationEvents] using hcl.2

theorem C6_closes_every_match_witness :
    mutationEvents ((ensureIssueClosing
      ⟨.ok (.arr [⟨1, "X"⟩, ⟨2, "Y"⟩, ⟨3, "X"⟩]), fun _ => .ok "", fun _ _ => .ok (),
        fun _ _ => .ok ()⟩ "repo" "X" []).2.1) =
      closeRequests "repo" [⟨1, "X"⟩, ⟨2, "Y"⟩, ⟨3, "X"⟩] "X" :=
  C6_closes_every_match _ "repo" "X" [] [⟨1, "X"⟩, ⟨2, "Y"⟩, ⟨3, "X"⟩] rfl
    (fun _ _ _ => rfl)

/-! ### C7 -/

/-- C7: the read-path operations never let a thrown transport error reach
their caller.  Whenever the un-caught body of `ensureIssue`, `getIssue` or
`findIssue` raises an error — for any behaviour of the HTTP collaborator —
the operation returns `null` / no-result and appends exactly one log
entry; the wrapped result types carry no error at all. -/
theorem C7_read_paths_never_throw (env : HttpEnv) (sanitize : String → String)
    (repository : String) (cfg : EnsureIssueConfig) (title : String) (number : Int)
    (useCache : Bool) (cache : Cache) :
    (∀ e tr c,
      ensureIssueInner env repository cfg.title cfg.reuseTitle (sanitize cfg.body) cache =
        (.error e, tr, c) →
      ensureIssue env sanitize repository cfg cache =
        (none, Event.logDebug "ensureIssue()" :: (tr ++ [ensureCatchLog e]), c) ∧
      isLog (ensureCatchLog e) = true) ∧
    (∀ e tr, getIssueInner env repository number useCache = (.error e, tr) →
      getIssue env repository number useCache =
        (none, tr ++ [.logWarn "Error getting issue"])) ∧
    (∀ e tr c, findIssueInner env repository title cache = (.error e, tr, c) →
      findIssue env repository title cache =
        (none,
          Event.logDebug s!"findIssue({title})" :: (tr ++ [.logWarn "Error finding issue"]),
          c)) := by
  refine ⟨?_, ?_, ?_⟩
  · intro e tr c h
    exact ⟨ensureIssue_err h, isLog_ensureCatchLog e⟩
  · intro e tr h
    simp only [getIssue, h]
  · intro e tr c h
    simp only [findIssue, h]

set_option maxRecDepth 8000 in
theorem C7_read_paths_never_throw_witness :
    (ensureIssue ⟨.error ⟨"boom"⟩, fun _ => .error ⟨"boom"⟩, fun _ _ => .ok (),
        fun _ _ => .ok ()⟩ (fun s => s) "r" ⟨"t", none, "b"⟩ [] =
      (none,
        [.logDebug "ensureIssue()", .request (.getJson "r/issues" none),
         .logWarn "Could not ensure issue"], []) ∧
      isLog (ensureCatchLog ⟨"boom"⟩) = true) ∧
    getIssue ⟨.error ⟨"boom"⟩, fun _ => .error ⟨"boom"⟩, fun _ _ => .ok (),
        fun _ _ => .ok ()⟩ "r" 5 true =
      (none,
        [.request (.getJson "r/issues/5" (some true)), .logWarn "Error getting issue"]) ∧
    findIssue ⟨.error ⟨"boom"⟩, fun _ => .error ⟨"boom"⟩, fun _ _ => .ok (),
        fun _ _ => .ok ()⟩ "r" "t" [] =
      (none,
        [.logDebug "findIssue(t)", .request (.getJson "r/issues" none),
         .logWarn "Error finding issue"], []) := by
  have h := C7_read_paths_never_throw
    ⟨.error ⟨"boom"⟩, fun _ => .error ⟨"boom"⟩, fun _ _ => .ok (), fun _ _ => .ok ()⟩
    (fun s => s) "r" ⟨"t", none, "b"⟩ "t" 5 true []
  exact ⟨h.1 ⟨"boom"⟩ [.request (.getJson "r/issues" none)] [] rfl,
    h.2.1 ⟨"boom"⟩ [.request (.getJson "r/issues/5" (some true))] rfl,
    h.2.2 ⟨"boom"⟩ [.request (.getJson "r/issues" none)] [] rfl⟩

/-! ### C8 -/

/-- C8: `ensureIssueClosing` has no catch: an error thrown by the list
fetch, or by any close request inside the loop, propagates unmodified in
the operation's result. -/
theorem C8_closing_propagates (env : HttpEnv) (repository title : String) (cache : Cache) :
    (∀ e, env.listIssues = .error e →
      (ensureIssueClosing env repository title cache).1 = .error e) ∧
    (∀ issues e, env.listIssues = .ok (.arr issues) →
      (closeLoop env repository title (issues.map projectIssue)).1 = .error e →
      (ensureIssueClosing env repository title cache).1 = .error e) := by
  refine ⟨?_, ?_⟩
  · intro e h
    simp [ensureIssueClosing, getIssueList, h]
  · intro issues e h hloop
    simp [ensureIssueClosing, getIssueList, h, hloop]

theorem C8_closing_propagates_witness :
    (ensureIssueClosing ⟨.error ⟨"neterr"⟩, fun _ => .ok "", fun _ _ => .ok (),
        fun _ _ => .ok ()⟩ "r" "X" []).1 = .error ⟨"neterr"⟩ ∧
    (ensureIssueClosing ⟨.ok (.arr [⟨1, "X"⟩]), fun _ => .ok "",
        fun _ _ => .error ⟨"putfail"⟩, fun _ _ => .ok ()⟩ "r" "X" []).1 =
      .error ⟨"putfail"⟩ :=
  ⟨(C8_closing_propagates ⟨.error ⟨"neterr"⟩, fun _ => .ok "", fun _ _ => .ok (),
      fun _ _ => .ok ()⟩ "r" "X" []).1 ⟨"neterr"⟩ rfl,
   (C8_closing_propagates ⟨.ok (.arr [⟨1, "X"⟩]), fun _ => .ok "",
      fun _ _ => .error ⟨"putfail"⟩, fun _ _ => .ok ()⟩ "r" "X" []).2
     [⟨1, "X"⟩] ⟨"putfail"⟩ rfl rfl⟩

/-! ### C9 -/

/-- C9: `findIssue` returns `null` when the freshly fetched list has no
exact title match; when the first exact match exists it returns the result
of fetching that issue by its iid — `{ number := iid, body := fetched
description }` on success and `null` when that fetch fails. -/
theorem C9_findIssue_cases (env : HttpEnv) (repository title : String) (cache : Cache)
    (issues : List SelfHostIssue)
    (hlist : env.listIssues = .ok (.arr issues)) :
    ((issues.map projectIssue).find? (fun i => i.title == title) = none →
      (findIssue env repository title cache).1 = none) ∧
    (∀ issue d,
      (issues.map projectIssue).find? (fun i => i.title == title) = some issue →
      env.getDesc issue.iid = .ok d →
      (findIssue env repository title cache).1 = some ⟨issue.iid, d⟩) ∧
    (∀ issue e,
      (issues.map projectIssue).find? (fun i => i.title == title) = some issue →
      env.getDesc issue.iid = .error e →
      (findIssue env repository title cache).1 = none) := by
  refine ⟨?_, ?_, ?_⟩
  · intro hf
    simp [findIssue, findIssueInner, getIssueList, hlist, hf]
  · intro issue d hf hd
    simp [findIssue, findIssueInner, getIssueList, hlist, hf, getIssue, getIssueInner, hd]
  · intro issue e hf hd
    simp [findIssue, findIssueInner, getIssueList, hlist, hf, getIssue, getIssueInner, hd]

theorem C9_findIssue_cases_witness :
    (findIssue ⟨.ok (.arr [⟨7, "T"⟩]), fun _ => .ok "desc", fun _ _ => .ok (),
        fun _ _ => .ok ()⟩ "r" "Z" []).1 = none ∧
    (findIssue ⟨.ok (.arr [⟨7, "T"⟩]), fun _ => .ok "desc", fun _ _ => .ok (),
        fun _ _ => .ok ()⟩ "r" "T" []).1 = some ⟨7, "desc"⟩ ∧
    (findIssue ⟨.ok (.arr [⟨7, "T"⟩]), fun _ => .error ⟨"boom2"⟩, fun _ _ => .ok (),
        fun _ _ => .ok ()⟩ "r" "T" []).1 = none :=
  ⟨(C9_findIssue_cases ⟨.ok (.arr [⟨7, "T"⟩]), fun _ => .ok "desc", fun _ _ => .ok (),
      fun _ _ => .ok ()⟩ "r" "Z" [] [⟨7, "T"⟩] rfl).1 rfl,
   (C9_findIssue_cases ⟨.ok (.arr [⟨7, "T"⟩]), fun _ => .ok "desc", fun _ _ => .ok (),
      fun _ _ => .ok ()⟩ "r" "T" [] [⟨7, "T"⟩] rfl).2.1 ⟨7, "T"⟩ "desc" rfl rfl,
   (C9_findIssue_cases ⟨.ok (.arr [⟨7, "T"⟩]), fun _ => .error ⟨"boom2"⟩,
      fun _ _ => .ok (), fun _ _ => .ok ()⟩ "r" "T" [] [⟨7, "T"⟩] rfl).2.2
     ⟨7, "T"⟩ ⟨"boom2"⟩ rfl rfl⟩

/-! ### C10 -/

/-- C10: `findIssue` always delegates to `getIssue` with the cache-usage
flag at its default `true`: every single-issue `getJson` request in a
`findIssue` trace carries `useCache = true` (the flag is `none` only on the
list fetch, which passes no flag), and when a title match exists the
delegated request with `useCache = true` is actually issued.  `findIssue`
offers its callers no way to force a cache-bypassing fetch. -/
theorem C10_default_cache_flag (env : HttpEnv) (repository title : String) (cache : Cache) :
    (∀ p b,
      Event.request (.getJson p (some b)) ∈ (findIssue env repository title cache).2.1 →
      b = true) ∧
    (∀ issues issue, env.listIssues = .ok (.arr issues) →
      (issues.map projectIssue).find? (fun i => i.title == title) = some issue →
      Event.request (.getJson s!"{repository}/issues/{issue.iid}" (some true)) ∈
        (findIssue env repository title cache).2.1) := by
  refine ⟨?_, ?_⟩
  · intro p b hmem
    rcases henv : env.listIssues with e | lb
    · simp [findIssue, findIssueInner, getIssueList, henv] at hmem
    · rcases lb with issues | _
      · rcases hf : (issues.map projectIssue).find? (fun i => i.title == title) with
          _ | issue
        · simp [findIssue, findIssueInner, getIssueList, henv, hf] at hmem
        · rcases hd : env.getDesc issue.iid with e2 | d
          · simp [findIssue, findIssueInner, getIssueList, henv, hf, getIssue,
              getIssueInner, hd] at hmem
            exact hmem.2
          · simp [findIssue, findIssueInner, getIssueList, henv, hf, getIssue,
              getIssueInner, hd] at hmem
            exact hmem.2
      · simp [findIssue, findIssueInner, getIssueList, henv] at hmem
  · intro issues issue hl hf
    rcases hd : env.getDesc issue.iid with e2 | d <;>
      simp [findIssue, findIssueInner, getIssueList, hl, hf, getIssue, getIssueInner, hd]

theorem C10_default_cache_flag_witness :
    (true = true) ∧
    Event.request (.getJson "r/issues/7" (some true)) ∈
      (findIssue ⟨.ok (.arr [⟨7, "T"⟩]), fun _ => .ok "d", fun _ _ => .ok (),
        fun _ _ => .ok ()⟩ "r" "T" []).2.1 := by
  have h := C10_default_cache_flag
    ⟨.ok (.arr [⟨7, "T"⟩]), fun _ => .ok "d", fun _ _ => .ok (), fun _ _ => .ok ()⟩
    "r" "T" []
  have hm := h.2 [⟨7, "T"⟩] ⟨7, "T"⟩ rfl rfl
  exact ⟨h.1 "r/issues/7" true hm, hm⟩

end CustomDashboardWriter
